import Mathlib

/-!
Shallow embedding of the fraud-inspection dashboard
(nubank case study project / final output / app.py).

The app is a single render script: load a CSV, validate required columns,
select one transaction row, and render metrics, a status banner and two
dataset-level charts.  Python strings are modelled as Lean `String`
(per-character ASCII semantics for upper/strip), pandas missing values
(NaN) in the risk-level column as `Option.none`, and floating-point
scores as rationals.  Fatal `st.error` + `st.stop` paths are modelled as
`Except.error`: the render cycle either halts with one message or
proceeds with a value.
-/

/-- ASCII whitespace recognised by the Python str.strip default
(space, tab, newline, carriage return, vertical tab, form feed). -/
def pyIsSpace (c : Char) : Bool :=
  c = ' ' || c = '\t' || c = '\n' || c = '\r' || c = '\x0b' || c = '\x0c'

/-- One character of Python str.upper, ASCII fragment. -/
def pyCharUpper (c : Char) : Char :=
  if 'a' ≤ c && c ≤ 'z' then Char.ofNat (c.toNat - 32) else c

/-- Python str.upper (ASCII fragment): uppercase every character. -/
def pyUpper (s : String) : String :=
  String.mk (s.data.map pyCharUpper)

/-- Python str.strip (no argument): drop whitespace from both ends. -/
def pyStrip (s : String) : String :=
  String.mk (((s.data.dropWhile pyIsSpace).reverse.dropWhile pyIsSpace).reverse)

/-- A raw pandas cell in the transaction-id column, before astype(str):
either already a string or an integer id. -/
inductive Val where
  | vStr : String → Val
  | vInt : Int → Val
deriving DecidableEq

/-- Python str() of a cell, as applied by astype(str). -/
def pyStrVal : Val → String
  | .vStr s => s
  | .vInt n => toString n

/-- Python str() of a possibly-missing pandas value: str(nan) is the
string nan. -/
def pyStr : Option String → String
  | some s => s
  | none => "nan"

/-- One row of the loaded table, restricted to the columns the app reads.
fraud_risk_level is Option String: none models a pandas NaN cell. -/
structure Row where
  transaction_id : Val
  is_fraud : Int
  final_moe_score : ℚ
  fraud_risk_level : Option String
  lstm_score : ℚ
  transformer_score : ℚ
  autoencoder_score : ℚ
  xgb_score : ℚ
  ada_score : ℚ
deriving DecidableEq

/-- The parsed CSV: its header (df.columns) and its rows. -/
structure DataFrame where
  columns : List String
  rows : List Row
deriving DecidableEq

/-- required_cols from app.py, in source order. -/
def required_cols : List String :=
  [ "is_fraud",
    "final_moe_score",
    "fraud_risk_level",
    "lstm_score",
    "transformer_score",
    "autoencoder_score",
    "xgb_score",
    "ada_score" ]

/-- missing_cols = [c for c in required_cols if c not in df.columns]. -/
def missing_cols (columns : List String) : List String :=
  required_cols.filter (fun c => decide (c ∉ columns))

/-- The two fatal-load error surfaces of app.py, with their payloads:
the missing filename, or the list of missing column names. -/
inductive LoadError where
  | fileNotFound : String → LoadError
  | missingColumns : List String → LoadError
deriving DecidableEq

/-- The fixed source filename app.py joins onto its own directory. -/
def csvFilename : String := "final_nubank_fraud_output.csv"

/-- The load phase of the render cycle: the os.path.exists guard
(st.error + st.stop when the file is absent), then pd.read_csv
(modelled as the already-parsed DataFrame argument), then the
required-columns check (st.error + st.stop when any is missing). -/
def loadData (fileExists : Bool) (df : DataFrame) : Except LoadError DataFrame :=
  if !fileExists then
    Except.error (LoadError.fileNotFound csvFilename)
  else
    let missing := missing_cols df.columns
    if !missing.isEmpty then
      Except.error (LoadError.missingColumns missing)
    else
      Except.ok df

/-- The identifier cell of a row, as the string the selection compares
(the column has just been overwritten with stripped strings). -/
def rowId (r : Row) : String := pyStrVal r.transaction_id

/-- One row after the column assignment
df[transaction_id] = df[transaction_id].astype(str).str.strip(). -/
def normalizeRow (r : Row) : Row :=
  { r with transaction_id := Val.vStr (pyStrip (pyStrVal r.transaction_id)) }

/-- The whole-column assignment: every identifier cell stringified and
stripped. -/
def normalizeIds (df : List Row) : List Row := df.map normalizeRow

/-- The trimmed, stringified identifier of a raw row. -/
def normId (r : Row) : String := pyStrip (pyStrVal r.transaction_id)

/-- The fatal-selection message of app.py. -/
def notFoundMsg : String := "❌ Selected transaction not found."

/-- The selection: filtered = df[df[transaction_id] == txn_id]; if
filtered.empty, st.error + st.stop; else txn = filtered.iloc[0]. -/
def selectTxn (df : List Row) (txn_id : String) : Except String Row :=
  match (normalizeIds df).filter (fun r => rowId r == txn_id) with
  | [] => Except.error notFoundMsg
  | r :: _ => Except.ok r

/-- The selectbox choices: df[transaction_id].unique().tolist() after
the column assignment (the distinct stripped identifiers; pandas
first-occurrence order is not modelled, no claim depends on it). -/
def txnChoices (df : List Row) : List String :=
  ((normalizeIds df).map rowId).dedup

/-- The message class of a Streamlit status banner: st.success,
st.warning, st.error, st.info. -/
inductive MsgKind where
  | success
  | warning
  | error
  | info
deriving DecidableEq

/-- A rendered status banner: its class and its text. -/
structure StatusMsg where
  kind : MsgKind
  text : String
deriving DecidableEq

/-- The business-decision banner of app.py:
risk_level = str(txn["fraud_risk_level"]).upper(), then the
if/elif/elif/else chain over LOW, MEDIUM, HIGH. -/
def statusMessage (txn : Row) : StatusMsg :=
  let risk_level := pyUpper (pyStr txn.fraud_risk_level)
  if risk_level = "LOW" then
    { kind := MsgKind.success, text := "✅ Your transaction was successful." }
  else if risk_level = "MEDIUM" then
    { kind := MsgKind.warning, text := "⚠️ Your transaction is on hold. Please contact the bank." }
  else if risk_level = "HIGH" then
    { kind := MsgKind.error, text := "🚫 Your transaction is blocked. Please contact the bank immediately." }
  else
    { kind := MsgKind.info, text := "ℹ️ Transaction status unavailable." }

/-- Modelled from the spec: the status-message table keyed directly by
the uppercased tier value (LOW to success, MEDIUM to warning, HIGH to
error, anything else to the informational unavailable message). -/
def statusOfTier (u : String) : StatusMsg :=
  if u = "LOW" then
    { kind := MsgKind.success, text := "✅ Your transaction was successful." }
  else if u = "MEDIUM" then
    { kind := MsgKind.warning, text := "⚠️ Your transaction is on hold. Please contact the bank." }
  else if u = "HIGH" then
    { kind := MsgKind.error, text := "🚫 Your transaction is blocked. Please contact the bank immediately." }
  else
    { kind := MsgKind.info, text := "ℹ️ Transaction status unavailable." }

/-- Ground-truth metric of app.py: Yes if int(txn["is_fraud"]) == 1
else No. -/
def groundTruthDisplay (txn : Row) : String :=
  if txn.is_fraud = 1 then "Yes" else "No"

/-- Round to the nearest integer, ties to even: the Python round
builtin, on the rational model of floats. -/
def roundHalfEven (x : ℚ) : ℤ :=
  if x - ⌊x⌋ < 1 / 2 then ⌊x⌋
  else if 1 / 2 < x - ⌊x⌋ then ⌊x⌋ + 1
  else if ⌊x⌋ % 2 = 0 then ⌊x⌋ else ⌊x⌋ + 1

/-- round(value, 3): round at the third decimal place. -/
def pyRound3 (x : ℚ) : ℚ := (roundHalfEven (x * 1000) : ℚ) / 1000

/-- The Final Fraud Score metric: round(float(txn["final_moe_score"]), 3). -/
def finalScoreMetric (txn : Row) : ℚ := pyRound3 txn.final_moe_score

/-- The final_moe_score column of the table, in row order. -/
def moeScores (df : List Row) : List ℚ := df.map (fun r => r.final_moe_score)

/-- df["final_moe_score"].sample(min(1000, len(df))): sampling without
replacement is modelled by a permutation perm of the row indices (the
RNG draw); the sample takes the first min(1000, len(df)) of them. -/
def insightsSample (df : List Row) (perm : List (Fin df.length)) : List ℚ :=
  (perm.take (min 1000 df.length)).map (fun i => (df.get i).final_moe_score)

/-- .sort_values().reset_index(drop=True): the sampled scores in
ascending order, reindexed by rank. -/
def insightsLineChart (df : List Row) (perm : List (Fin df.length)) : List ℚ :=
  List.insertionSort (fun a b => a ≤ b) (insightsSample df perm)

/-- The non-missing risk-level values, in row order: value_counts
drops NaN cells by default. -/
def riskLevelValues (df : List Row) : List String :=
  df.filterMap (fun r => r.fraud_risk_level)

/-- df["fraud_risk_level"].value_counts(): one entry per distinct
present value with its occurrence count (pandas orders entries by
descending count; entry order is not modelled, no claim depends on
it). -/
def riskLevelCounts (df : List Row) : List (String × Nat) :=
  (riskLevelValues df).dedup.map (fun v => (v, (riskLevelValues df).count v))

/-- A concrete row used to instantiate theorems with hypotheses. -/
def rowT100 : Row :=
  { transaction_id := Val.vStr "T100"
    is_fraud := 1
    final_moe_score := 8734 / 10000
    fraud_risk_level := some "HIGH"
    lstm_score := 9 / 10
    transformer_score := 85 / 100
    autoencoder_score := 7 / 10
    xgb_score := 88 / 100
    ada_score := 81 / 100 }

/-- Like rowT100 but with a lowercase risk level. -/
def rowLowerHigh : Row :=
  { rowT100 with transaction_id := Val.vStr "T101", fraud_risk_level := some "high" }

/-- A row whose risk level is the tier LOW padded with a leading
space. -/
def rowPaddedLow : Row :=
  { rowT100 with
    transaction_id := Val.vStr "T102"
    fraud_risk_level := some (" " ++ "LOW" ++ "") }

/-- A row with a missing (NaN) risk level. -/
def rowNoRisk : Row :=
  { rowT100 with transaction_id := Val.vStr "T103", fraud_risk_level := none }

/-- A table whose header lacks exactly the xgb_score column. -/
def frameNoXgb : DataFrame :=
  { columns := ["is_fraud", "final_moe_score", "fraud_risk_level",
      "lstm_score", "transformer_score", "autoencoder_score", "ada_score"]
    rows := [] }

/-- A two-row table for the sampling witness. -/
def dfPair : List Row := [rowT100, rowLowerHigh]

/-- A two-row table with one missing risk level. -/
def dfMix : List Row := [rowT100, rowNoRisk]

/-! Helper lemmas about the selection. -/

lemma selectTxn_cons (r : Row) (df : List Row) (q : String) :
    selectTxn (r :: df) q =
      if normId r = q then Except.ok (normalizeRow r) else selectTxn df q := by
  have hid : rowId (normalizeRow r) = normId r := rfl
  by_cases h : normId r = q
  · rw [if_pos h]
    unfold selectTxn normalizeIds
    rw [List.map_cons, List.filter_cons_of_pos (by rw [hid, h]; exact beq_self_eq_true q)]
  · rw [if_neg h]
    unfold selectTxn normalizeIds
    rw [List.map_cons,
      List.filter_cons_of_neg (by rw [hid]; simpa using beq_eq_false_iff_ne.mpr h)]

lemma selectTxn_not_found (df : List Row) (q : String)
    (h : ∀ r ∈ df, normId r ≠ q) : selectTxn df q = Except.error notFoundMsg := by
  induction df with
  | nil => rfl
  | cons r df ih =>
    rw [selectTxn_cons, if_neg (h r (by simp))]
    exact ih (fun x hx => h x (by simp [hx]))

lemma selectTxn_found (df : List Row) (q : String) (r : Row)
    (hr : r ∈ df) (hq : normId r = q) :
    ∃ pre hit post, df = pre ++ hit :: post ∧ normId hit = q ∧
      (∀ p ∈ pre, normId p ≠ q) ∧ selectTxn df q = Except.ok (normalizeRow hit) := by
  induction df with
  | nil => cases hr
  | cons a df ih =>
    by_cases ha : normId a = q
    · exact ⟨[], a, df, rfl, ha, by simp, by rw [selectTxn_cons, if_pos ha]⟩
    · have hr₂ : r ∈ df := by
        rcases List.mem_cons.mp hr with h1 | h1
        · exact absurd (by rw [← h1]; exact hq) ha
        · exact h1
      obtain ⟨pre, hit, post, hdf, hhit, hpre, hsel⟩ := ih hr₂
      refine ⟨a :: pre, hit, post, by rw [hdf]; rfl, hhit, ?_, ?_⟩
      · intro p hp
        rcases List.mem_cons.mp hp with h1 | h1
        · rw [h1]; exact ha
        · exact hpre p h1
      · rw [selectTxn_cons, if_neg ha]
        exact hsel

/-! Helper lemmas about whitespace and uppercasing. -/

lemma pyCharUpper_of_space {c : Char} (h : pyIsSpace c = true) : pyCharUpper c = c := by
  have h2 : c = ' ' ∨ c = '\t' ∨ c = '\n' ∨ c = '\x0d' ∨ c = '\x0b' ∨ c = '\x0c' := by
    simp only [pyIsSpace, Bool.or_eq_true, decide_eq_true_eq] at h
    tauto
  rcases h2 with h | h | h | h | h | h <;> subst h <;> decide

lemma mem_pyUpper_of_space {s : String} {c : Char} (hc : c ∈ s.data)
    (hsp : pyIsSpace c = true) : c ∈ (pyUpper s).data := by
  have hd : (pyUpper s).data = s.data.map pyCharUpper := rfl
  rw [hd, List.mem_map]
  exact ⟨c, hc, pyCharUpper_of_space hsp⟩

lemma string_ne_of_space {u v : String} (hu : ∃ c ∈ u.data, pyIsSpace c = true)
    (hv : ∀ c ∈ v.data, pyIsSpace c = false) : u ≠ v := by
  intro he
  obtain ⟨c, hc, hs⟩ := hu
  have hvc := hv c (he ▸ hc)
  rw [hs] at hvc
  exact absurd hvc (by decide)

/-! Helper lemmas about rounding. -/

lemma abs_roundHalfEven_sub_le (x : ℚ) : |((roundHalfEven x : ℤ) : ℚ) - x| ≤ 1 / 2 := by
  have h0 : (⌊x⌋ : ℚ) ≤ x := Int.floor_le x
  have h1 : x < ⌊x⌋ + 1 := Int.lt_floor_add_one x
  unfold roundHalfEven
  by_cases hlt : x - (⌊x⌋ : ℚ) < 1 / 2
  · rw [if_pos hlt, abs_le]
    constructor <;> linarith
  · rw [if_neg hlt]
    by_cases hgt : (1 : ℚ) / 2 < x - ⌊x⌋
    · rw [if_pos hgt]
      push_cast
      rw [abs_le]
      constructor <;> linarith
    · rw [if_neg hgt]
      by_cases hev : ⌊x⌋ % 2 = 0
      · rw [if_pos hev, abs_le]
        constructor <;> linarith
      · rw [if_neg hev]
        push_cast
        rw [abs_le]
        constructor <;> linarith

/-! Helper lemmas about counts. -/

lemma count_riskLevelValues (df : List Row) (v : String) :
    (riskLevelValues df).count v
      = (df.filter (fun r => decide (r.fraud_risk_level = some v))).length := by
  induction df with
  | nil => rfl
  | cons r df ih =>
    unfold riskLevelValues at ih ⊢
    rw [List.filterMap_cons, List.filter_cons]
    cases h : r.fraud_risk_level with
    | none => simpa [h] using ih
    | some w =>
      by_cases hv : w = v
      · subst hv
        simp [List.count_cons, ih]
      · have hv₂ : ¬ (some w = some v) := by simp [hv]
        simp [List.count_cons, hv, hv₂, ih]

lemma sum_map_ite_eq_zero {x : String} {l : List String} (h : x ∉ l) :
    (l.map (fun v => if v = x then (1 : ℕ) else 0)).sum = 0 := by
  induction l with
  | nil => rfl
  | cons a l ih =>
    have ha : ¬ a = x := fun he => h (by rw [← he]; exact List.mem_cons_self a l)
    simp only [List.map_cons, List.sum_cons, if_neg ha, Nat.zero_add]
    exact ih (fun hm => h (List.mem_cons_of_mem a hm))

lemma sum_map_ite_eq_one {x : String} {l : List String} (hn : l.Nodup) (hx : x ∈ l) :
    (l.map (fun v => if v = x then (1 : ℕ) else 0)).sum = 1 := by
  induction l with
  | nil => cases hx
  | cons a l ih =>
    have hnd := List.nodup_cons.mp hn
    rcases List.mem_cons.mp hx with h | h
    · have hxl : x ∉ l := by rw [h]; exact hnd.1
      simp only [List.map_cons, List.sum_cons, if_pos h.symm, sum_map_ite_eq_zero hxl]
    · have ha : ¬ a = x := fun he => hnd.1 (by rw [he]; exact h)
      simp only [List.map_cons, List.sum_cons, if_neg ha, ih hnd.2 h]

lemma sum_map_add_split (f g : String → ℕ) (l : List String) :
    (l.map (fun v => f v + g v)).sum = (l.map f).sum + (l.map g).sum := by
  induction l with
  | nil => rfl
  | cons a l ih =>
    simp only [List.map_cons, List.sum_cons, ih]
    omega

lemma sum_counts_eq_length (l : List String) :
    (l.dedup.map (fun v => l.count v)).sum = l.length := by
  induction l with
  | nil => rfl
  | cons x l ih =>
    have hsplit : ∀ v, (x :: l).count v = l.count v + (if v = x then 1 else 0) := by
      intro v
      rw [List.count_cons]
      by_cases h : v = x
      · subst h
        simp
      · have h2 : ¬ (x = v) := fun he => h he.symm
        simp [h, h2]
    by_cases hx : x ∈ l
    · rw [List.dedup_cons_of_mem hx,
        List.map_congr_left (fun v _ => hsplit v), sum_map_add_split, ih,
        sum_map_ite_eq_one (List.nodup_dedup l) (List.mem_dedup.mpr hx)]
      simp only [List.length_cons]
    · rw [List.dedup_cons_of_not_mem hx, List.map_cons, List.sum_cons,
        List.map_congr_left (fun v _ => hsplit v), sum_map_add_split, ih,
        sum_map_ite_eq_zero (fun hm => hx (List.mem_dedup.mp hm)),
        hsplit x, if_pos rfl, List.count_eq_zero.mpr hx]
      simp only [List.length_cons]
      omega

lemma values_length_add_none (df : List Row) :
    (riskLevelValues df).length
      + (df.filter (fun r => decide (r.fraud_risk_level = none))).length = df.length := by
  induction df with
  | nil => rfl
  | cons r df ih =>
    unfold riskLevelValues at ih ⊢
    rw [List.filterMap_cons, List.filter_cons]
    cases h : r.fraud_risk_level with
    | none =>
      simp [h]
      omega
    | some w =>
      simp [h]
      omega

/-! The claims. -/

/-- C1: the rendered status banner is a pure function of the uppercased
fraud_risk_level value: it equals the spec table applied to that
uppercased value, and any two records with the same uppercased value
render the same banner, whatever the rest of their state. -/
theorem statusMessage_pure_tier_table (txn txn₂ : Row) :
    statusMessage txn = statusOfTier (pyUpper (pyStr txn.fraud_risk_level)) ∧
    (pyUpper (pyStr txn.fraud_risk_level) = pyUpper (pyStr txn₂.fraud_risk_level) →
      statusMessage txn = statusMessage txn₂) := by
  constructor
  · rfl
  · intro h
    simp only [statusMessage, h]

/-- C1 witness: two concrete records whose risk levels agree after
uppercasing (HIGH and high) render the same banner. -/
theorem statusMessage_pure_tier_table_witness :
    statusMessage rowT100 = statusMessage rowLowerHigh :=
  (statusMessage_pure_tier_table rowT100 rowLowerHigh).2 (by decide)

/-- C4: the ground-truth metric shows Yes exactly when the integer
value of is_fraud equals 1, and No for every other integer value. -/
theorem groundTruth_yes_iff_is_fraud_one (txn : Row) :
    (groundTruthDisplay txn = "Yes" ↔ txn.is_fraud = 1) ∧
    (txn.is_fraud ≠ 1 → groundTruthDisplay txn = "No") := by
  constructor
  · constructor
    · intro h
      by_contra hne
      simp [groundTruthDisplay, hne] at h
    · intro h
      simp [groundTruthDisplay, h]
  · intro h
    simp [groundTruthDisplay, h]

/-- C4 witness: a record with is_fraud = 7 displays No. -/
theorem groundTruth_yes_iff_is_fraud_one_witness :
    groundTruthDisplay { rowT100 with is_fraud := 7 } = "No" :=
  (groundTruth_yes_iff_is_fraud_one { rowT100 with is_fraud := 7 }).2 (by decide)

/-- C7: when the source file is absent the load phase halts with the
fatal error naming the filename; when the file exists, no
file-not-found error can be the outcome of the load phase. -/
theorem loadData_file_check (df : DataFrame) :
    loadData false df = Except.error (LoadError.fileNotFound csvFilename) ∧
    (∀ name : String, loadData true df ≠ Except.error (LoadError.fileNotFound name)) := by
  constructor
  · rfl
  · intro name
    simp only [loadData]
    by_cases h : (missing_cols df.columns).isEmpty <;> simp [h]

/-- C7 witness: with the file present and an empty header (all required
columns missing), the outcome is still never a file-not-found error. -/
theorem loadData_file_check_witness :
    loadData true { columns := [], rows := [] }
      ≠ Except.error (LoadError.fileNotFound csvFilename) :=
  (loadData_file_check { columns := [], rows := [] }).2 csvFilename

/-- C2: the reported missing-column list holds exactly the required
columns absent from the header (every missing one and no other); the
load halts with that list when it is non-empty, and proceeds with the
table when it is empty. -/
theorem loader_missing_columns_exact (df : DataFrame) :
    (∀ c, c ∈ missing_cols df.columns ↔ (c ∈ required_cols ∧ c ∉ df.columns)) ∧
    (missing_cols df.columns ≠ [] →
      loadData true df = Except.error (LoadError.missingColumns (missing_cols df.columns))) ∧
    (missing_cols df.columns = [] → loadData true df = Except.ok df) := by
  refine ⟨?_, ?_, ?_⟩
  · intro c
    simp [missing_cols, List.mem_filter]
  · intro h
    have hne : ¬ (missing_cols df.columns).isEmpty := by
      simpa [List.isEmpty_iff] using h
    simp [loadData, hne]
  · intro h
    simp [loadData, h]

/-- C2 witness: a header with all required columns except xgb_score
reports exactly that one missing column and halts with it. -/
theorem loader_missing_columns_exact_witness :
    loadData true frameNoXgb = Except.error (LoadError.missingColumns ["xgb_score"]) := by
  have h := (loader_missing_columns_exact frameNoXgb).2.1 (by decide)
  simpa using h

/-- C3: every identifier is stringified and stripped before use; a
chosen identifier matching no (trimmed, stringified) id halts with the
not-found error, and a chosen identifier that occurs resolves to the
first row whose trimmed, stringified id equals it (never a silent
default: the outcome is one Except value). -/
theorem selector_first_match_or_not_found (df : List Row) (q : String) :
    ((∀ r ∈ df, normId r ≠ q) → selectTxn df q = Except.error notFoundMsg) ∧
    ((∃ r ∈ df, normId r = q) →
      ∃ pre hit post, df = pre ++ hit :: post ∧ normId hit = q ∧
        (∀ p ∈ pre, normId p ≠ q) ∧ selectTxn df q = Except.ok (normalizeRow hit)) := by
  refine ⟨selectTxn_not_found df q, ?_⟩
  rintro ⟨r, hr, hq⟩
  exact selectTxn_found df q r hr hq

/-- C3 witness: on the one-row table [rowT100], the id T100 resolves to
that row. -/
theorem selector_first_match_or_not_found_witness :
    ∃ pre hit post, [rowT100] = pre ++ hit :: post ∧ normId hit = "T100" ∧
      (∀ p ∈ pre, normId p ≠ "T100") ∧
      selectTxn [rowT100] "T100" = Except.ok (normalizeRow hit) :=
  (selector_first_match_or_not_found [rowT100] "T100").2
    ⟨rowT100, List.mem_singleton.mpr rfl, by decide⟩

/-- C8: the selectbox choices are exactly the distinct trimmed,
stringified identifiers of the table, and every such choice makes the
filtered row set non-empty, so the not-found branch cannot fire for a
choosable identifier. -/
theorem choices_always_resolve (df : List Row) (q : String) :
    (∀ s, s ∈ txnChoices df ↔ s ∈ df.map normId) ∧
    (q ∈ txnChoices df → ∃ r, selectTxn df q = Except.ok r) := by
  have hmap : (normalizeIds df).map rowId = df.map normId := by
    simp only [normalizeIds, List.map_map]
    rfl
  constructor
  · intro s
    rw [txnChoices, hmap, List.mem_dedup]
  · intro hq
    rw [txnChoices, hmap, List.mem_dedup] at hq
    obtain ⟨r, hr, hid⟩ := List.mem_map.mp hq
    obtain ⟨pre, hit, post, _, _, _, hsel⟩ := selectTxn_found df q r hr hid
    exact ⟨normalizeRow hit, hsel⟩

/-- C8 witness: T100 is a choosable identifier of [rowT100] and the
selection succeeds on it. -/
theorem choices_always_resolve_witness :
    ∃ r, selectTxn [rowT100] "T100" = Except.ok r :=
  (choices_always_resolve [rowT100] "T100").2 (by decide)

/-- C9: the risk level is uppercased but never trimmed: a record whose
fraud_risk_level is one of the tiers LOW, MEDIUM, HIGH padded with any
non-empty leading or trailing whitespace renders the informational
unavailable banner, not the tier banner. -/
theorem status_whitespace_not_trimmed (txn : Row) (t w₁ w₂ : String)
    (ht : t = "LOW" ∨ t = "MEDIUM" ∨ t = "HIGH")
    (hw₁ : ∀ c ∈ w₁.data, pyIsSpace c = true)
    (hw₂ : ∀ c ∈ w₂.data, pyIsSpace c = true)
    (hne : w₁ ≠ "" ∨ w₂ ≠ "")
    (hfield : txn.fraud_risk_level = some (w₁ ++ t ++ w₂)) :
    statusMessage txn = { kind := MsgKind.info, text := "ℹ️ Transaction status unavailable." } := by
  have hdata : (w₁ ++ t ++ w₂).data = w₁.data ++ t.data ++ w₂.data := by
    simp
  have hspace : ∃ c ∈ (pyUpper (w₁ ++ t ++ w₂)).data, pyIsSpace c = true := by
    rcases hne with h | h
    · have hd : w₁.data ≠ [] := fun hnil => h (String.ext (by rw [hnil]))
      obtain ⟨c, hc⟩ := List.exists_mem_of_ne_nil _ hd
      refine ⟨c, mem_pyUpper_of_space ?_ (hw₁ c hc), hw₁ c hc⟩
      rw [hdata]
      exact List.mem_append_left _ (List.mem_append_left _ hc)
    · have hd : w₂.data ≠ [] := fun hnil => h (String.ext (by rw [hnil]))
      obtain ⟨c, hc⟩ := List.exists_mem_of_ne_nil _ hd
      refine ⟨c, mem_pyUpper_of_space ?_ (hw₂ c hc), hw₂ c hc⟩
      rw [hdata]
      exact List.mem_append_right _ hc
  have h1 : pyUpper (w₁ ++ t ++ w₂) ≠ "LOW" := string_ne_of_space hspace (by decide)
  have h2 : pyUpper (w₁ ++ t ++ w₂) ≠ "MEDIUM" := string_ne_of_space hspace (by decide)
  have h3 : pyUpper (w₁ ++ t ++ w₂) ≠ "HIGH" := string_ne_of_space hspace (by decide)
  simp only [statusMessage, hfield, pyStr]
  rw [if_neg h1, if_neg h2, if_neg h3]

/-- C9 witness: the padded risk level " LOW" renders the informational
unavailable banner. -/
theorem status_whitespace_not_trimmed_witness :
    statusMessage rowPaddedLow
      = { kind := MsgKind.info, text := "ℹ️ Transaction status unavailable." } :=
  status_whitespace_not_trimmed rowPaddedLow "LOW" " " ""
    (Or.inl rfl) (by decide) (by decide) (Or.inl (by decide)) rfl

/-- C5: the Final Fraud Score metric is the final_moe_score rounded at
the third decimal place: it is an integer multiple of 1/1000 within
1/2000 of the score, and 0.8734 rounds to 0.873. -/
theorem final_score_rounded_3dp (txn : Row) :
    finalScoreMetric txn = pyRound3 txn.final_moe_score ∧
    (∃ n : ℤ, finalScoreMetric txn = (n : ℚ) / 1000) ∧
    |finalScoreMetric txn - txn.final_moe_score| ≤ 1 / 2000 ∧
    pyRound3 (8734 / 10000) = 873 / 1000 := by
  refine ⟨rfl, ⟨roundHalfEven (txn.final_moe_score * 1000), rfl⟩, ?_, ?_⟩
  · have h := abs_roundHalfEven_sub_le (txn.final_moe_score * 1000)
    rw [abs_le] at h
    unfold finalScoreMetric pyRound3
    rw [abs_le]
    constructor <;> linarith
  · have harg : (8734 : ℚ) / 10000 * 1000 = 8734 / 10 := by norm_num
    have hfl : ⌊(8734 : ℚ) / 10⌋ = 873 := by norm_num
    have hc : (8734 : ℚ) / 10 - (⌊(8734 : ℚ) / 10⌋ : ℚ) < 1 / 2 := by
      rw [hfl]
      norm_num
    unfold pyRound3
    rw [harg]
    unfold roundHalfEven
    rw [if_pos hc, hfl]
    norm_num

/-- C6: the insights line chart is the sorted random sample of
final_moe_score values of size min(1000, row count): for every RNG draw
(a permutation of the row indices) the chart has that length, is
ascending, draws only from the score column, and uses all rows when the
table has at most 1000 of them. -/
theorem insights_sample_min_1000_sorted (df : List Row) (perm : List (Fin df.length))
    (hperm : perm.Perm (List.finRange df.length)) :
    (insightsLineChart df perm).length = min 1000 df.length ∧
    List.Sorted (fun a b : ℚ => a ≤ b) (insightsLineChart df perm) ∧
    (∀ x ∈ insightsLineChart df perm, x ∈ moeScores df) ∧
    (df.length ≤ 1000 → (insightsLineChart df perm).Perm (moeScores df)) := by
  have hlen : perm.length = df.length := by
    simpa using hperm.length_eq
  have hmapget : (List.finRange df.length).map (fun i => (df.get i).final_moe_score)
      = moeScores df := by
    have hcomp : (fun i : Fin df.length => (df.get i).final_moe_score)
        = (fun r : Row => r.final_moe_score) ∘ df.get := rfl
    rw [hcomp, ← List.map_map, List.finRange_map_get]
    rfl
  refine ⟨?_, ?_, ?_, ?_⟩
  · unfold insightsLineChart insightsSample
    simp only [List.length_insertionSort, List.length_map, List.length_take, hlen]
    omega
  · exact List.sorted_insertionSort _ _
  · intro x hx
    unfold insightsLineChart at hx
    rw [List.mem_insertionSort] at hx
    unfold insightsSample at hx
    obtain ⟨i, _, hix⟩ := List.mem_map.mp hx
    exact List.mem_map.mpr ⟨df.get i, List.get_mem df i.1 i.2, hix⟩
  · intro hle
    have hmin : min 1000 df.length = df.length := by omega
    have htake : perm.take (min 1000 df.length) = perm :=
      List.take_of_length_le (by omega)
    have hs : insightsSample df perm = perm.map (fun i => (df.get i).final_moe_score) := by
      unfold insightsSample
      rw [htake]
    have hchart : insightsLineChart df perm |>.Perm (insightsSample df perm) :=
      List.perm_insertionSort _ _
    rw [hs] at hchart
    exact hchart.trans (hmapget ▸ hperm.map (fun i => (df.get i).final_moe_score))

/-- C6 witness: on the two-row table dfPair with the identity draw, the
chart is a permutation of the whole score column. -/
theorem insights_sample_min_1000_sorted_witness :
    (insightsLineChart dfPair (List.finRange dfPair.length)).Perm (moeScores dfPair) :=
  (insights_sample_min_1000_sorted dfPair (List.finRange dfPair.length)
    (List.Perm.refl _)).2.2.2 (by decide)

/-- C10: the risk-level distribution chart counts only rows with a
present risk level: each entry counts exactly the rows carrying its
value, entries exist exactly for present values, the total of the
counts is the number of non-missing rows, and a table with a missing
(NaN) risk level has a chart total strictly below its row count. -/
theorem risk_counts_exclude_missing (df : List Row) :
    (∀ v n, (v, n) ∈ riskLevelCounts df →
      n = (df.filter (fun r => decide (r.fraud_risk_level = some v))).length) ∧
    (∀ v, (∃ n, (v, n) ∈ riskLevelCounts df) ↔ ∃ r ∈ df, r.fraud_risk_level = some v) ∧
    ((riskLevelCounts df).map Prod.snd).sum = (riskLevelValues df).length ∧
    (riskLevelValues df).length
      + (df.filter (fun r => decide (r.fraud_risk_level = none))).length = df.length ∧
    ((∃ r ∈ df, r.fraud_risk_level = none) →
      ((riskLevelCounts df).map Prod.snd).sum < df.length) := by
  have hsum : ((riskLevelCounts df).map Prod.snd).sum = (riskLevelValues df).length := by
    unfold riskLevelCounts
    rw [List.map_map]
    exact sum_counts_eq_length (riskLevelValues df)
  have htotal := values_length_add_none df
  refine ⟨?_, ?_, hsum, htotal, ?_⟩
  · intro v n hmem
    unfold riskLevelCounts at hmem
    obtain ⟨w, _, heq⟩ := List.mem_map.mp hmem
    obtain ⟨hw, hn⟩ := Prod.mk.injEq .. ▸ heq
    rw [← hn, hw]
    exact count_riskLevelValues df v
  · intro v
    constructor
    · rintro ⟨n, hmem⟩
      unfold riskLevelCounts at hmem
      obtain ⟨w, hw, heq⟩ := List.mem_map.mp hmem
      obtain ⟨hwv, _⟩ := Prod.mk.injEq .. ▸ heq
      rw [← hwv]
      exact List.mem_filterMap.mp (List.mem_dedup.mp hw)
    · intro hex
      have hv : v ∈ (riskLevelValues df).dedup :=
        List.mem_dedup.mpr (List.mem_filterMap.mpr hex)
      exact ⟨(riskLevelValues df).count v,
        List.mem_map.mpr ⟨v, hv, rfl⟩⟩
  · rintro ⟨r, hr, hnone⟩
    have hmem : r ∈ df.filter (fun r => decide (r.fraud_risk_level = none)) :=
      List.mem_filter.mpr ⟨hr, by simp [hnone]⟩
    have hpos : 0 < (df.filter (fun r => decide (r.fraud_risk_level = none))).length :=
      List.length_pos.mpr (List.ne_nil_of_mem hmem)
    omega

/-- C10 witness: on the table dfMix (one HIGH row, one missing row) the
HIGH entry counts exactly one row. -/
theorem risk_counts_exclude_missing_witness :
    (1 : ℕ) = (dfMix.filter (fun r => decide (r.fraud_risk_level = some "HIGH"))).length :=
  (risk_counts_exclude_missing dfMix).1 "HIGH" 1 (by decide)
